import Mathlib

/-!
# Twell.ai — `src/actions/user.js`

A shallow embedding of the two server actions `updateUser` and
`getUserOnboardingStatus`, together with the part of the persistence layer,
the identity provider and the insight generator that they talk to.

* The database is a pair of tables (lists of rows).  Point lookups return the
  first matching row, inserts append, updates rewrite the rows selected by the
  `where` clause, and unique constraints are checked on insert and update.
* `auth()`, `currentUser()`, `generateAIInsights` and `Date.now()` are inputs.
* Every action returns its JavaScript result (a value or a thrown error), the
  database after the call, and the chronological list of external operations
  it issued.  Console logging is not recorded.
-/

namespace Twell

/-! ## Data model -/

/-- A JSON value that the code only copies around, kept in serialised form. -/
abbrev Json := String

/-- Modelled from the spec: the `User` table of the Prisma schema (the schema file is not part
of the sources).  Internal id, nullable unique external-subject id, unique email, display
name, nullable industry, experience, text of the biography, skills, onboarded flag. -/
structure User where
  id : Nat
  clerkUserId : Option String
  email : String
  name : Option String
  industry : Option String
  experience : Option Nat
  bio : Option String
  skills : List String
  isOnboarded : Bool
deriving DecidableEq, Repr

/-- Modelled from the spec: the `IndustryInsight` table of the Prisma schema (the schema file
is not part of the sources), keyed by industry; the columns are those written at lines
38-43. -/
structure IndustryInsight where
  industry : String
  averageSalary : Json
  inDemandSkills : Json
  industryGrowth : Json
  nextUpdate : Nat
deriving DecidableEq, Repr

/-- The database: the two tables the actions touch. -/
structure Store where
  users : List User
  insights : List IndustryInsight
deriving DecidableEq, Repr

/-- A JavaScript error object: `message`, and for persistence errors `code` and
`meta.target`. -/
structure JsError where
  message : String
  code : Option String
  target : Option (List String)
deriving DecidableEq, Repr

/-- The JavaScript expression `new Error(message)`. -/
def JsError.new (message : String) : JsError :=
  { message := message, code := none, target := none }

/-- The persistence layer's unique-constraint error on one column. -/
def JsError.uniqueViolation (field : String) : JsError :=
  { message := "Unique constraint failed on the fields: (" ++ field ++ ")",
    code := some "P2002", target := some [field] }

/-- The persistence layer's error for an update whose row does not exist. -/
def JsError.recordNotFound : JsError :=
  { message := "Record to update not found.", code := some "P2025", target := none }

/-- The `where` clauses used on the `User` table. -/
inductive UserWhere where
  | clerkUserId (s : String)
  | email (e : String)
  | id (n : Nat)
deriving DecidableEq, Repr

/-- The external operations an action issues, in the order it issues them. -/
inductive Effect where
  | userFindUnique (w : UserWhere)
  | userCreate (clerkUserId email : String)
  | userUpdate (id : Nat)
  | insightFindUnique (industry : String)
  | insightCreate (industry : String)
  | generateAIInsights (industry : String)
  | revalidatePath (path : String)
deriving DecidableEq, Repr

/-- The operations that write to the database. -/
def Effect.isWrite : Effect → Bool
  | .userCreate _ _ => true
  | .userUpdate _ => true
  | .insightCreate _ => true
  | _ => false

/-- The outcome of an action: returned value or thrown error, database afterwards, and
the operations issued. -/
structure Outcome (α : Type) where
  result : Except JsError α
  db : Store
  trace : List Effect

/-- JavaScript truthiness of a nullable string, returning the string when it is truthy:
`null`, `undefined` and the empty string are falsy. -/
def truthy : Option String → Option String
  | some s => if s = "" then none else some s
  | none => none

/-! ## Identity provider -/

/-- One entry of the provider's `emailAddresses` array. -/
structure EmailAddress where
  emailAddress : String
deriving DecidableEq, Repr

/-- The object returned by `currentUser()`, restricted to the fields that are read. -/
structure ClerkUser where
  firstName : Option String
  emailAddresses : Option (List EmailAddress)
deriving DecidableEq, Repr

/-- The expression `clerkUser.emailAddresses?.[0]?.emailAddress`. -/
def ClerkUser.firstEmail (cu : ClerkUser) : Option String :=
  match cu.emailAddresses with
  | some (a :: _) => some a.emailAddress
  | _ => none

/-! ## Persistence layer -/

/-- Does a row satisfy a `where` clause? -/
def UserWhere.test (w : UserWhere) (u : User) : Bool :=
  match w with
  | .clerkUserId s => u.clerkUserId = some s
  | .email e => u.email = e
  | .id n => u.id = n

/-- The call `db.user.findUnique` with a `where` clause. -/
def db.user.findUnique (st : Store) (w : UserWhere) : Option User :=
  st.users.find? w.test

/-- The internal id the database gives to the next inserted user row: one that no
existing row carries. -/
def db.user.freshId (st : Store) : Nat :=
  st.users.foldr (fun u m => max u.id m) 0 + 1

/-- The call `db.user.create` with the columns written at lines 113-119; the columns not
mentioned take the schema's defaults (null, empty list).  Fails with a unique-constraint
error when the email or the external-subject id is already taken. -/
def db.user.create (st : Store) (clerkUserId email name : String) (isOnboarded : Bool) :
    Except JsError (User × Store) :=
  match db.user.findUnique st (.email email) with
  | some _ => .error (JsError.uniqueViolation "email")
  | none =>
    match db.user.findUnique st (.clerkUserId clerkUserId) with
    | some _ => .error (JsError.uniqueViolation "clerkUserId")
    | none =>
      let u : User :=
        { id := db.user.freshId st, clerkUserId := some clerkUserId, email := email,
          name := some name, industry := none, experience := none, bio := none,
          skills := [], isOnboarded := isOnboarded }
      .ok (u, { st with users := st.users ++ [u] })

/-- The call `db.user.update` with `where: { id }` and `data: { clerkUserId }` (lines
133-136 and 152-155).  Fails when no row has the id, or when another row already carries the
external-subject id. -/
def db.user.updateClerkUserId (st : Store) (id : Nat) (clerkUserId : String) :
    Except JsError (User × Store) :=
  match db.user.findUnique st (.id id) with
  | none => .error JsError.recordNotFound
  | some u =>
    if st.users.any (fun v => v.id ≠ id ∧ v.clerkUserId = some clerkUserId) then
      .error (JsError.uniqueViolation "clerkUserId")
    else
      .ok ({ u with clerkUserId := some clerkUserId },
        { st with users := st.users.map (fun v =>
            if v.id = id then { v with clerkUserId := some clerkUserId } else v) })

/-- The payload of `updateUser`. -/
structure ProfileData where
  industry : String
  experience : Nat
  bio : String
  skills : List String
deriving DecidableEq, Repr

/-- The assignment of lines 52-58 applied to one row. -/
def User.setProfile (u : User) (data : ProfileData) : User :=
  { u with industry := some data.industry, experience := some data.experience,
           bio := some data.bio, skills := data.skills, isOnboarded := true }

/-- The call `tx.user.update` with `where: { id }` and the profile columns of lines
52-58.  Fails when no row has the id. -/
def db.user.updateProfile (st : Store) (id : Nat) (data : ProfileData) :
    Except JsError (User × Store) :=
  match db.user.findUnique st (.id id) with
  | none => .error JsError.recordNotFound
  | some u =>
    .ok (u.setProfile data,
      { st with users := st.users.map (fun v => if v.id = id then v.setProfile data else v) })

/-- The call `tx.industryInsight.findUnique` by industry key. -/
def db.industryInsight.findUnique (st : Store) (industry : String) : Option IndustryInsight :=
  st.insights.find? (fun i => i.industry = industry)

/-- The call `tx.industryInsight.create`.  Fails with a unique-constraint error when the
industry key is already present. -/
def db.industryInsight.create (st : Store) (row : IndustryInsight) :
    Except JsError (IndustryInsight × Store) :=
  match db.industryInsight.findUnique st row.industry with
  | some _ => .error (JsError.uniqueViolation "industry")
  | none => .ok (row, { st with insights := st.insights ++ [row] })

/-- The call `db.$transaction`: the callback runs on the database; when it throws, every
write it made is rolled back and the error is passed on. -/
def db.transaction {α : Type} (body : Store → Outcome α) (st : Store) : Outcome α :=
  let r := body st
  match r.result with
  | .ok _ => r
  | .error _ => { r with db := st }

/-! ## Insight generator -/

/-- The fields of the generator's answer that are stored. -/
structure Insights where
  averageSalary : Json
  inDemandSkills : Json
  industryGrowth : Json
deriving DecidableEq, Repr

/-- The generator `generateAIInsights`, imported from another module: synchronous and
fallible. -/
abbrev Generator := String → Except JsError Insights

/-! ## `updateUser` (lines 8-75) -/

/-- The transaction callback of lines 25-62. -/
def updateUser.callback (generateAIInsights : Generator) (now : Nat) (user : User)
    (data : ProfileData) (tx : Store) : Outcome (User × IndustryInsight) :=
  let t₀ := [Effect.insightFindUnique data.industry]
  let ensured : Outcome IndustryInsight :=
    match db.industryInsight.findUnique tx data.industry with
    | some industryInsight => ⟨.ok industryInsight, tx, t₀⟩
    | none =>
      match generateAIInsights data.industry with
      | .error e => ⟨.error e, tx, t₀ ++ [.generateAIInsights data.industry]⟩
      | .ok insights =>
        let t₁ := t₀ ++ [.generateAIInsights data.industry, .insightCreate data.industry]
        match db.industryInsight.create tx
            { industry := data.industry,
              averageSalary := insights.averageSalary,
              inDemandSkills := insights.inDemandSkills,
              industryGrowth := insights.industryGrowth,
              nextUpdate := now + 7 * 24 * 60 * 60 * 1000 } with
        | .error e => ⟨.error e, tx, t₁⟩
        | .ok (industryInsight, tx₁) => ⟨.ok industryInsight, tx₁, t₁⟩
  match ensured.result with
  | .error e => ⟨.error e, ensured.db, ensured.trace⟩
  | .ok industryInsight =>
    let t₂ := ensured.trace ++ [.userUpdate user.id]
    match db.user.updateProfile ensured.db user.id data with
    | .error e => ⟨.error e, ensured.db, t₂⟩
    | .ok (updatedUser, tx₂) => ⟨.ok (updatedUser, industryInsight), tx₂, t₂⟩

/-- The server action `updateUser`.  `userId` is what `auth()` yields, `now` is
`Date.now()` in milliseconds. -/
def updateUser (userId : Option String) (generateAIInsights : Generator) (now : Nat)
    (data : ProfileData) (st : Store) : Outcome User :=
  match truthy userId with
  | none => ⟨.error (JsError.new "Unauthorized"), st, []⟩
  | some uid =>
    let t₀ := [Effect.userFindUnique (.clerkUserId uid)]
    match db.user.findUnique st (.clerkUserId uid) with
    | none =>
      ⟨.error (JsError.new "User not found in database for the authenticated Clerk user."),
        st, t₀⟩
    | some user =>
      let r := db.transaction (updateUser.callback generateAIInsights now user data) st
      match r.result with
      | .ok result => ⟨.ok result.1, r.db, t₀ ++ r.trace ++ [.revalidatePath "/"]⟩
      | .error error =>
        ⟨.error (JsError.new ("Failed to update profile: " ++ error.message)), r.db,
          t₀ ++ r.trace⟩

/-! ## `getUserOnboardingStatus` (lines 77-179) -/

/-- The object returned by `getUserOnboardingStatus`. -/
structure OnboardingStatus where
  isOnboarded : Bool
  user : Option User
deriving DecidableEq, Repr

/-- Lines 165-178: the returned object once the row is known. -/
def getUserOnboardingStatus.finish (user : User) (st : Store) (t : List Effect) :
    Outcome OnboardingStatus :=
  ⟨.ok { isOnboarded := (truthy user.industry).isSome, user := some user }, st, t⟩

/-- Lines 121-146: the `catch` block around the insert. -/
def getUserOnboardingStatus.recover (error : JsError) (userId userEmail : String)
    (st : Store) (t : List Effect) : Outcome OnboardingStatus :=
  if error.code = some "P2002" ∧ (error.target.getD []).contains "email" then
    let t₁ := t ++ [.userFindUnique (.email userEmail)]
    match db.user.findUnique st (.email userEmail) with
    | none =>
      ⟨.error (JsError.new "Failed to retrieve or create user in database."), st, t₁⟩
    | some user =>
      if user.clerkUserId = none then
        match db.user.updateClerkUserId st user.id userId with
        | .error e => ⟨.error e, st, t₁ ++ [.userUpdate user.id]⟩
        | .ok (linked, st₁) =>
          getUserOnboardingStatus.finish linked st₁ (t₁ ++ [.userUpdate user.id])
      else if user.clerkUserId ≠ some userId then
        ⟨.error (JsError.new ("Account with this email already exists and is linked to " ++
          "another user. Please contact support.")), st, t₁⟩
      else getUserOnboardingStatus.finish user st t₁
  else
    ⟨.error (JsError.new ("Failed to create user record: " ++ error.message)), st, t⟩

/-- The server action `getUserOnboardingStatus`.  `userId` is what `auth()` yields and
`clerkUser` what `currentUser()` yields. -/
def getUserOnboardingStatus (userId : Option String) (clerkUser : Option ClerkUser)
    (st : Store) : Outcome OnboardingStatus :=
  match truthy userId with
  | none => ⟨.ok { isOnboarded := false, user := none }, st, []⟩
  | some userId =>
    match clerkUser with
    | none => ⟨.ok { isOnboarded := false, user := none }, st, []⟩
    | some clerkUser =>
      match truthy clerkUser.firstEmail with
      | none => ⟨.ok { isOnboarded := false, user := none }, st, []⟩
      | some userEmail =>
        let t₀ := [Effect.userFindUnique (.clerkUserId userId)]
        match db.user.findUnique st (.clerkUserId userId) with
        | some user => getUserOnboardingStatus.finish user st t₀
        | none =>
          let t₁ := t₀ ++ [.userFindUnique (.email userEmail)]
          match db.user.findUnique st (.email userEmail) with
          | none =>
            let t₂ := t₁ ++ [.userCreate userId userEmail]
            match db.user.create st userId userEmail
                ((truthy clerkUser.firstName).getD userEmail) false with
            | .ok (user, st₁) => getUserOnboardingStatus.finish user st₁ t₂
            | .error error => getUserOnboardingStatus.recover error userId userEmail st t₂
          | some user =>
            if user.clerkUserId = none then
              match db.user.updateClerkUserId st user.id userId with
              | .ok (linked, st₁) =>
                getUserOnboardingStatus.finish linked st₁ (t₁ ++ [.userUpdate user.id])
              | .error _ =>
                ⟨.error (JsError.new "Failed to link existing user to Clerk account."), st,
                  t₁ ++ [.userUpdate user.id]⟩
            else getUserOnboardingStatus.finish user st t₁

/-! ## Well-formed stores and the words of the specification -/

/-- The primary key of the `User` table: no two rows share an internal id. -/
def Store.uniqueIds (st : Store) : Prop := (st.users.map User.id).Nodup

/-- The unique constraint on `email`. -/
def Store.uniqueEmails (st : Store) : Prop := (st.users.map User.email).Nodup

/-- The unique constraint on the insight key: at most one row per industry. -/
def Store.uniqueIndustries (st : Store) : Prop :=
  (st.insights.map IndustryInsight.industry).Nodup

instance (st : Store) : Decidable st.uniqueIds := by
  unfold Store.uniqueIds; infer_instance

instance (st : Store) : Decidable st.uniqueEmails := by
  unfold Store.uniqueEmails; infer_instance

instance (st : Store) : Decidable st.uniqueIndustries := by
  unfold Store.uniqueIndustries; infer_instance

/-- The local part of an email address in the words of the specification: the text
before the first `@`. -/
def localPart (email : String) : String :=
  String.mk (email.data.takeWhile (fun c => c ≠ '@'))

/-- The cache invalidations among the operations issued. -/
def Effect.isRevalidate : Effect → Bool
  | .revalidatePath _ => true
  | _ => false

/-- The generator invocations among the operations issued. -/
def Effect.isGenerate : Effect → Bool
  | .generateAIInsights _ => true
  | _ => false

/-! ## Derived notions used in the statements -/

/-- The insight row written at lines 36-45. -/
def insightRow (industry : String) (insights : Insights) (now : Nat) : IndustryInsight :=
  { industry := industry, averageSalary := insights.averageSalary,
    inDemandSkills := insights.inDemandSkills, industryGrowth := insights.industryGrowth,
    nextUpdate := now + 7 * 24 * 60 * 60 * 1000 }

/-- The row `u` with its external-subject id set to `S`. -/
def User.link (u : User) (S : String) : User := { u with clerkUserId := some S }

/-- The property of an outcome that a returned row determines `isOnboarded` through its
industry alone. -/
def Outcome.reflectsIndustry (o : Outcome OnboardingStatus) : Prop :=
  ∀ r u, o.result = .ok r → r.user = some u →
    r.isOnboarded = (truthy u.industry).isSome

/-! ## Concrete inputs -/

/-- A row linked to subject `userA`, with an industry. -/
def foreignRow : User :=
  { id := 1, clerkUserId := some "userA", email := "a@x.com", name := some "A",
    industry := some "Tech", experience := none, bio := none, skills := [],
    isOnboarded := true }

/-- A row created by an earlier authentication system: no subject id yet. -/
def legacyRow : User :=
  { id := 2, clerkUserId := none, email := "b@x.com", name := some "B", industry := none,
    experience := none, bio := none, skills := [], isOnboarded := false }

/-- A store with one linked and one unlinked row and no insight. -/
def sampleStore : Store := { users := [foreignRow, legacyRow], insights := [] }

/-- A provider detail whose primary email is `b@x.com`. -/
def sampleClerkUser : ClerkUser :=
  { firstName := some "B", emailAddresses := some [⟨"b@x.com"⟩] }

/-- A payload. -/
def sampleData : ProfileData :=
  { industry := "Finance", experience := 3, bio := "Analyst", skills := ["SQL"] }

/-- A generator that answers. -/
def sampleGenerator : Generator :=
  fun _ => .ok { averageSalary := "120000", inDemandSkills := "SQL, Python",
                 industryGrowth := "12%" }

/-- A generator that fails. -/
def failingGenerator : Generator := fun _ => .error (JsError.new "quota exceeded")

/-! ## Lemmas on lookups -/

@[simp] theorem truthy_none : truthy none = none := rfl

@[simp] theorem truthy_empty : truthy (some "") = none := rfl

theorem truthy_some {s : String} (h : s ≠ "") : truthy (some s) = some s := by
  simp [truthy, h]

theorem truthy_eq_some {v : Option String} {s : String} (h : truthy v = some s) :
    v = some s ∧ s ≠ "" := by
  cases v with
  | none => simp [truthy] at h
  | some t =>
    by_cases ht : t = ""
    · simp [truthy, ht] at h
    · simp [truthy, ht] at h
      subst h
      exact ⟨rfl, ht⟩

theorem truthy_eq_none {v : Option String} (h : v = none ∨ v = some "") : truthy v = none := by
  rcases h with h | h <;> subst h <;> simp [truthy]

theorem findUnique_clerkUserId_none {st : Store} {S : String}
    (h : ∀ u ∈ st.users, u.clerkUserId ≠ some S) :
    db.user.findUnique st (.clerkUserId S) = none := by
  simp only [db.user.findUnique, List.find?_eq_none]
  intro u hu
  simpa [UserWhere.test] using h u hu

theorem findUnique_email_none {st : Store} {E : String} (h : ∀ u ∈ st.users, u.email ≠ E) :
    db.user.findUnique st (.email E) = none := by
  simp only [db.user.findUnique, List.find?_eq_none]
  intro u hu
  simpa [UserWhere.test] using h u hu

theorem insight_findUnique_none {st : Store} {X : String}
    (h : ∀ i ∈ st.insights, i.industry ≠ X) :
    db.industryInsight.findUnique st X = none := by
  simp only [db.industryInsight.findUnique, List.find?_eq_none]
  intro i hi
  simpa using h i hi

theorem find?_of_unique {α : Type} (p : α → Bool) (u : α) :
    ∀ l : List α, u ∈ l → p u = true → (∀ v ∈ l, p v = true → v = u) → l.find? p = some u
  | [], hu, _, _ => by simp at hu
  | a :: l, hu, hp, huniq => by
    by_cases ha : p a = true
    · have := huniq a (List.mem_cons_self a l) ha
      subst this
      simp [List.find?, ha]
    · have hne : u ≠ a := fun h => ha (h ▸ hp)
      have hu' : u ∈ l := by
        rcases List.mem_cons.mp hu with h | h
        · exact absurd h hne
        · exact h
      have ih := find?_of_unique p u l hu' hp
        (fun v hv hpv => huniq v (List.mem_cons_of_mem a hv) hpv)
      simp [List.find?, ha, ih]

/-! ## Guards of the two actions -/

/-- C9: with no authenticated subject id (null or empty), or with the provider's user detail
unavailable, or with its first email address missing or empty, `getUserOnboardingStatus`
returns `isOnboarded = false` and `user = null` without raising, issues no database operation
at all, and leaves the store as it was. -/
theorem getUserOnboardingStatus_no_session (userId : Option String)
    (clerkUser : Option ClerkUser) (st : Store)
    (h : (userId = none ∨ userId = some "") ∨ clerkUser = none ∨
      ∃ cu, clerkUser = some cu ∧ (cu.firstEmail = none ∨ cu.firstEmail = some "")) :
    (getUserOnboardingStatus userId clerkUser st).result
        = .ok { isOnboarded := false, user := none } ∧
      (getUserOnboardingStatus userId clerkUser st).trace = [] ∧
      (getUserOnboardingStatus userId clerkUser st).db = st := by
  unfold getUserOnboardingStatus
  rcases h with h | h | ⟨cu, rfl, h⟩
  · rw [truthy_eq_none h]
    exact ⟨rfl, rfl, rfl⟩
  · subst h
    cases truthy userId <;> exact ⟨rfl, rfl, rfl⟩
  · cases truthy userId with
    | none => exact ⟨rfl, rfl, rfl⟩
    | some uid =>
      simp [truthy_eq_none h]

/-- C8: `updateUser` throws `Unauthorized` when no authenticated subject id is present (null
or empty), and throws the not-found error when the subject id is present but no user row
carries it.  In both cases the generator is not invoked, no write is issued (the only
operation, if any, is the lookup by subject id) and the store, hence the number of user
rows, is unchanged. -/
theorem updateUser_guards (userId : Option String) (gen : Generator) (now : Nat)
    (data : ProfileData) (st : Store)
    (h : (userId = none ∨ userId = some "") ∨
      ∃ S, userId = some S ∧ S ≠ "" ∧ ∀ u ∈ st.users, u.clerkUserId ≠ some S) :
    ((userId = none ∨ userId = some "") →
        (updateUser userId gen now data st).result = .error (JsError.new "Unauthorized") ∧
        (updateUser userId gen now data st).trace = []) ∧
      (∀ S, userId = some S → S ≠ "" →
        (updateUser userId gen now data st).result = .error (JsError.new
          "User not found in database for the authenticated Clerk user.") ∧
        (updateUser userId gen now data st).trace = [.userFindUnique (.clerkUserId S)]) ∧
      (updateUser userId gen now data st).db = st ∧
      (∀ e ∈ (updateUser userId gen now data st).trace,
        e.isGenerate = false ∧ e.isWrite = false) := by
  rcases h with h | ⟨S, rfl, hS, hno⟩
  · have ht := truthy_eq_none h
    refine ⟨fun _ => ?_, ?_, ?_, ?_⟩
    · simp [updateUser, ht]
    · rintro S rfl hS
      rcases h with h | h
      · simp at h
      · simp only [Option.some.injEq] at h
        exact absurd h hS
    · simp [updateUser, ht]
    · simp [updateUser, ht]
  · have ht := truthy_some hS
    have hf := findUnique_clerkUserId_none hno
    refine ⟨?_, ?_, ?_, ?_⟩
    · rintro (h | h)
      · simp at h
      · simp only [Option.some.injEq] at h
        exact absurd h hS
    · intro S' hS' _
      simp only [Option.some.injEq] at hS'
      subst hS'
      simp [updateUser, ht, hf]
    · simp [updateUser, ht, hf]
    · simp [updateUser, ht, hf, Effect.isGenerate, Effect.isWrite]

theorem findUnique_email_of_mem {st : Store} {u : User} (hE : st.uniqueEmails)
    (hu : u ∈ st.users) : db.user.findUnique st (.email u.email) = some u := by
  refine find?_of_unique _ u st.users hu (by simp [UserWhere.test]) ?_
  intro v hv hp
  have hp' : v.email = u.email := by simpa [UserWhere.test] using hp
  exact List.inj_on_of_nodup_map hE hv hu hp'

theorem findUnique_id_of_mem {st : Store} {u : User} (hI : st.uniqueIds)
    (hu : u ∈ st.users) : db.user.findUnique st (.id u.id) = some u := by
  refine find?_of_unique _ u st.users hu (by simp [UserWhere.test]) ?_
  intro v hv hp
  have hp' : v.id = u.id := by simpa [UserWhere.test] using hp
  exact List.inj_on_of_nodup_map hI hv hu hp'

theorem findUnique_mem {st : Store} {w : UserWhere} {u : User}
    (h : db.user.findUnique st w = some u) : u ∈ st.users ∧ w.test u = true := by
  unfold db.user.findUnique at h
  exact ⟨List.mem_of_find?_eq_some h, List.find?_some h⟩

theorem le_foldr_max_id (l : List User) :
    ∀ u ∈ l, u.id ≤ l.foldr (fun u m => max u.id m) 0 := by
  induction l with
  | nil => simp
  | cons a l ih =>
    intro u hu
    rcases List.mem_cons.mp hu with h | h
    · subst h
      simp
    · have := ih u h
      simp only [List.foldr_cons]
      omega

theorem freshId_ne (st : Store) : ∀ u ∈ st.users, u.id ≠ db.user.freshId st := by
  intro u hu
  have := le_foldr_max_id st.users u hu
  unfold db.user.freshId
  omega

/-! ## `getUserOnboardingStatus`: create, link, foreign email -/

/-- C2: when no user row has subject id `S` and no user row has email `E`,
`getUserOnboardingStatus` appends exactly one user row (subject id `S`, email `E`, onboarded
flag false, an internal id no other row carries), leaves every other row and the insight table
unchanged, issues the insert as its only write, and returns that row with
`isOnboarded = false`. -/
theorem getUserOnboardingStatus_creates (S E : String) (cu : ClerkUser) (st : Store)
    (hS : S ≠ "") (hE : E ≠ "") (hcu : cu.firstEmail = some E)
    (hnoS : ∀ u ∈ st.users, u.clerkUserId ≠ some S)
    (hnoE : ∀ u ∈ st.users, u.email ≠ E) :
    ∃ row : User,
      (getUserOnboardingStatus (some S) (some cu) st).result
          = .ok { isOnboarded := false, user := some row } ∧
        (getUserOnboardingStatus (some S) (some cu) st).db
          = { users := st.users ++ [row], insights := st.insights } ∧
        (getUserOnboardingStatus (some S) (some cu) st).trace.filter Effect.isWrite
          = [.userCreate S E] ∧
        row.clerkUserId = some S ∧ row.email = E ∧ row.isOnboarded = false ∧
        (∀ u ∈ st.users, u.id ≠ row.id) := by
  have h1 := findUnique_clerkUserId_none hnoS
  have h2 := findUnique_email_none hnoE
  refine ⟨{ id := db.user.freshId st, clerkUserId := some S, email := E,
            name := some ((truthy cu.firstName).getD E), industry := none,
            experience := none, bio := none, skills := [], isOnboarded := false },
    ?_, ?_, ?_, rfl, rfl, rfl, freshId_ne st⟩
  · simp [getUserOnboardingStatus, truthy_some hS, hcu, truthy_some hE, h1, h2,
      db.user.create, getUserOnboardingStatus.finish]
  · simp [getUserOnboardingStatus, truthy_some hS, hcu, truthy_some hE, h1, h2,
      db.user.create, getUserOnboardingStatus.finish]
  · simp [getUserOnboardingStatus, truthy_some hS, hcu, truthy_some hE, h1, h2,
      db.user.create, getUserOnboardingStatus.finish, Effect.isWrite, List.filter]

/-- The recovery path of lines 138-141: after a unique-email violation, a row found by email
and linked to a different subject makes the call throw the conflict error. -/
theorem recover_conflict (S E : String) (st : Store) (t : List Effect) (other : User)
    (hfind : db.user.findUnique st (.email E) = some other)
    (hlinked : ∃ S', other.clerkUserId = some S' ∧ S' ≠ S) :
    (getUserOnboardingStatus.recover (JsError.uniqueViolation "email") S E st t).result
      = .error (JsError.new ("Account with this email already exists and is linked to " ++
          "another user. Please contact support.")) := by
  obtain ⟨S', hS', hne⟩ := hlinked
  simp [getUserOnboardingStatus.recover, JsError.uniqueViolation, hfind, hS', hne]

/-- C1 (evaluation of the code): when no row has subject id `S` and the row with email `E`
is linked to a different subject, `getUserOnboardingStatus` raises nothing: it returns that
other subject's row to the caller, with `isOnboarded` computed from it.  The store is left
unchanged and no write is issued. -/
theorem getUserOnboardingStatus_foreign_email (S : String) (cu : ClerkUser) (st : Store)
    (other : User) (hS : S ≠ "") (hE : other.email ≠ "") (hcu : cu.firstEmail = some other.email)
    (hnoS : ∀ u ∈ st.users, u.clerkUserId ≠ some S)
    (huniq : st.uniqueEmails) (hmem : other ∈ st.users)
    (hlinked : ∃ S', other.clerkUserId = some S' ∧ S' ≠ S) :
    (getUserOnboardingStatus (some S) (some cu) st).result
        = .ok { isOnboarded := (truthy other.industry).isSome, user := some other } ∧
      (getUserOnboardingStatus (some S) (some cu) st).db = st ∧
      ∀ e ∈ (getUserOnboardingStatus (some S) (some cu) st).trace, e.isWrite = false := by
  have h1 := findUnique_clerkUserId_none hnoS
  have h2 := findUnique_email_of_mem huniq hmem
  obtain ⟨S', hS', _⟩ := hlinked
  simp [getUserOnboardingStatus, truthy_some hS, hcu, truthy_some hE, h1, h2, hS',
    getUserOnboardingStatus.finish, Effect.isWrite]

/-- C1 at the failing input: subject `userB` signs in with the email of the row linked to
`userA`; the call returns `userA`'s row with `isOnboarded = true` instead of failing. -/
theorem getUserOnboardingStatus_foreign_email_witness :
    (getUserOnboardingStatus (some "userB")
        (some { firstName := none, emailAddresses := some [⟨"a@x.com"⟩] })
        { users := [foreignRow], insights := [] }).result
      = .ok { isOnboarded := true, user := some foreignRow } :=
  (getUserOnboardingStatus_foreign_email "userB"
    { firstName := none, emailAddresses := some [⟨"a@x.com"⟩] }
    { users := [foreignRow], insights := [] } foreignRow (by decide) (by decide) rfl
    (by decide) (by decide) (by decide) ⟨"userA", rfl, by decide⟩).1

/-- C10 (as amended): when `getUserOnboardingStatus` creates a new user row, its name is the
provider's first name if that is a non-empty string, and otherwise the whole primary email
address. -/
theorem getUserOnboardingStatus_created_name (S E : String) (cu : ClerkUser) (st : Store)
    (hS : S ≠ "") (hE : E ≠ "") (hcu : cu.firstEmail = some E)
    (hnoS : ∀ u ∈ st.users, u.clerkUserId ≠ some S)
    (hnoE : ∀ u ∈ st.users, u.email ≠ E) :
    ∃ row : User,
      (getUserOnboardingStatus (some S) (some cu) st).result
          = .ok { isOnboarded := false, user := some row } ∧
        (getUserOnboardingStatus (some S) (some cu) st).db.users = st.users ++ [row] ∧
        (∀ n, cu.firstName = some n → n ≠ "" → row.name = some n) ∧
        (cu.firstName = none ∨ cu.firstName = some "" → row.name = some E) := by
  have h1 := findUnique_clerkUserId_none hnoS
  have h2 := findUnique_email_none hnoE
  refine ⟨{ id := db.user.freshId st, clerkUserId := some S, email := E,
            name := some ((truthy cu.firstName).getD E), industry := none,
            experience := none, bio := none, skills := [], isOnboarded := false },
    ?_, ?_, ?_, ?_⟩
  · simp [getUserOnboardingStatus, truthy_some hS, hcu, truthy_some hE, h1, h2,
      db.user.create, getUserOnboardingStatus.finish]
  · simp [getUserOnboardingStatus, truthy_some hS, hcu, truthy_some hE, h1, h2,
      db.user.create, getUserOnboardingStatus.finish]
  · intro n hn hne
    simp [hn, truthy_some hne]
  · intro h
    simp [truthy_eq_none h]

/-- C10 (amended claim at a concrete input): with first name `Ann` the created row is named
`Ann`; the store was empty. -/
theorem getUserOnboardingStatus_created_name_witness :
    ∃ row : User,
      (getUserOnboardingStatus (some "u1")
          (some { firstName := some "Ann", emailAddresses := some [⟨"ann@example.com"⟩] })
          { users := [], insights := [] }).result
          = .ok { isOnboarded := false, user := some row } ∧
        row.name = some "Ann" := by
  obtain ⟨row, h1, _, h3, _⟩ := getUserOnboardingStatus_created_name "u1" "ann@example.com"
    { firstName := some "Ann", emailAddresses := some [⟨"ann@example.com"⟩] }
    { users := [], insights := [] } (by decide) (by decide) rfl (by simp) (by simp)
  exact ⟨row, h1, h3 "Ann" rfl (by decide)⟩

/-- C10 (the claim as stated fails): subject `u1` signs in with primary email
`ann@example.com` and no first name into an empty store.  The created row is named
`ann@example.com`, not the local part `ann`. -/
theorem getUserOnboardingStatus_created_name_counterexample :
    localPart "ann@example.com" = "ann" ∧
      ∃ row : User,
        (getUserOnboardingStatus (some "u1")
            (some { firstName := none, emailAddresses := some [⟨"ann@example.com"⟩] })
            { users := [], insights := [] }).result
            = .ok { isOnboarded := false, user := some row } ∧
          row.name = some "ann@example.com" ∧
          row.name ≠ some (localPart "ann@example.com") :=
  ⟨by decide,
    { id := 1, clerkUserId := some "u1", email := "ann@example.com",
      name := some "ann@example.com", industry := none, experience := none, bio := none,
      skills := [], isOnboarded := false },
    rfl, rfl, by decide⟩

/-! ## `updateUser` -/

/-- C4: when the caller's user row exists, the payload's industry has no insight row and the
generator fails with message `m`, `updateUser` throws an error whose message is
`Failed to update profile: ` followed by `m`; the store is exactly the store before the call
(so the user's industry, experience, bio, skills and onboarded flag keep their values and no
insight row is added), and no cache invalidation is issued. -/
theorem updateUser_generator_failure (S : String) (gen : Generator) (now : Nat)
    (data : ProfileData) (st : Store) (caller : User) (err : JsError)
    (hS : S ≠ "") (hcaller : caller ∈ st.users) (hlinked : caller.clerkUserId = some S)
    (hnew : ∀ i ∈ st.insights, i.industry ≠ data.industry)
    (hgen : gen data.industry = .error err) :
    (updateUser (some S) gen now data st).result
        = .error (JsError.new ("Failed to update profile: " ++ err.message)) ∧
      (updateUser (some S) gen now data st).db = st ∧
      ∀ e ∈ (updateUser (some S) gen now data st).trace,
        e.isWrite = false ∧ e.isRevalidate = false := by
  have hi := insight_findUnique_none hnew
  have hsome : ∃ u, db.user.findUnique st (.clerkUserId S) = some u := by
    cases hf : db.user.findUnique st (.clerkUserId S) with
    | some u => exact ⟨u, rfl⟩
    | none =>
      have := (List.find?_eq_none.mp hf) caller hcaller
      simp [UserWhere.test, hlinked] at this
  obtain ⟨u, hu⟩ := hsome
  simp [updateUser, truthy_some hS, hu, db.transaction, updateUser.callback, hi, hgen,
    Effect.isWrite, Effect.isRevalidate]

/-- Every way in which `updateUser` can return: the subject id is present, a row `caller`
carries it, the row `target` selected by `caller`'s internal id is rewritten, and the insight
table is either left alone (key present) or extended by the generated row (key absent). -/
theorem updateUser_ok_cases {userId : Option String} {gen : Generator} {now : Nat}
    {data : ProfileData} {st : Store} {r : User}
    (h : (updateUser userId gen now data st).result = .ok r) :
    ∃ S caller target, userId = some S ∧ S ≠ "" ∧
      db.user.findUnique st (.clerkUserId S) = some caller ∧
      db.user.findUnique st (.id caller.id) = some target ∧
      r = target.setProfile data ∧
      (updateUser userId gen now data st).db.users
        = st.users.map (fun v => if v.id = caller.id then v.setProfile data else v) ∧
      ((∃ i, db.industryInsight.findUnique st data.industry = some i ∧
          (updateUser userId gen now data st).db.insights = st.insights ∧
          (updateUser userId gen now data st).trace
            = [.userFindUnique (.clerkUserId S), .insightFindUnique data.industry,
               .userUpdate caller.id, .revalidatePath "/"]) ∨
        (db.industryInsight.findUnique st data.industry = none ∧
          ∃ g, gen data.industry = .ok g ∧
            (updateUser userId gen now data st).db.insights
              = st.insights ++ [insightRow data.industry g now] ∧
            (updateUser userId gen now data st).trace
              = [.userFindUnique (.clerkUserId S), .insightFindUnique data.industry,
                 .generateAIInsights data.industry, .insightCreate data.industry,
                 .userUpdate caller.id, .revalidatePath "/"])) := by
  cases ht : truthy userId with
  | none => simp [updateUser, ht] at h
  | some S =>
    obtain ⟨hS1, hS2⟩ := truthy_eq_some ht
    cases hf : db.user.findUnique st (.clerkUserId S) with
    | none => simp [updateUser, ht, hf] at h
    | some caller =>
      refine ⟨S, caller, ?_⟩
      cases hu : db.user.findUnique st (.id caller.id) with
      | none =>
        unfold db.user.findUnique at hu hf
        cases hi : db.industryInsight.findUnique st data.industry with
        | some i =>
          simp [updateUser, ht, hf, db.transaction, updateUser.callback, hi,
            db.user.updateProfile, db.user.findUnique, hu] at h
        | none =>
          cases hg : gen data.industry with
          | error e =>
            simp [updateUser, ht, hf, db.transaction, updateUser.callback, hi, hg,
              db.user.findUnique] at h
          | ok g =>
            unfold db.industryInsight.findUnique at hi
            simp [updateUser, ht, hf, db.transaction, updateUser.callback, hi, hg,
              db.user.updateProfile, db.user.findUnique, hu, db.industryInsight.create,
              db.industryInsight.findUnique] at h
      | some target =>
        refine ⟨target, hS1, hS2, hf, rfl, ?_⟩
        unfold db.user.findUnique at hu hf
        cases hi : db.industryInsight.findUnique st data.industry with
        | some i =>
          simp [updateUser, ht, hf, db.transaction, updateUser.callback, hi,
            db.user.updateProfile, db.user.findUnique, hu] at h ⊢
          exact h.symm
        | none =>
          cases hg : gen data.industry with
          | error e =>
            simp [updateUser, ht, hf, db.transaction, updateUser.callback, hi, hg,
              db.user.findUnique] at h
          | ok g =>
            unfold db.industryInsight.findUnique at hi
            simp [updateUser, ht, hf, db.transaction, updateUser.callback, hi, hg,
              db.user.updateProfile, db.user.findUnique, hu, db.industryInsight.create,
              db.industryInsight.findUnique, insightRow] at h ⊢
            exact h.symm

/-- A failing `updateUser` never issues the cache invalidation. -/
theorem updateUser_error_no_revalidate {userId : Option String} {gen : Generator} {now : Nat}
    {data : ProfileData} {st : Store} {err : JsError}
    (h : (updateUser userId gen now data st).result = .error err) :
    ∀ e ∈ (updateUser userId gen now data st).trace, e.isRevalidate = false := by
  cases ht : truthy userId with
  | none => simp [updateUser, ht]
  | some S =>
    cases hf : db.user.findUnique st (.clerkUserId S) with
    | none => simp [updateUser, ht, hf, Effect.isRevalidate]
    | some caller =>
      unfold db.user.findUnique at hf
      cases hu : List.find? (UserWhere.test (.id caller.id)) st.users with
      | none =>
        cases hi : db.industryInsight.findUnique st data.industry with
        | some i =>
          simp [updateUser, ht, hf, db.transaction, updateUser.callback, hi,
            db.user.updateProfile, db.user.findUnique, hu, Effect.isRevalidate]
        | none =>
          cases hg : gen data.industry with
          | error e =>
            simp [updateUser, ht, hf, db.transaction, updateUser.callback, hi, hg,
              db.user.findUnique, Effect.isRevalidate]
          | ok g =>
            unfold db.industryInsight.findUnique at hi
            simp [updateUser, ht, hf, db.transaction, updateUser.callback, hi, hg,
              db.user.updateProfile, db.user.findUnique, hu, db.industryInsight.create,
              db.industryInsight.findUnique, Effect.isRevalidate]
      | some target =>
        cases hi : db.industryInsight.findUnique st data.industry with
        | some i =>
          simp [updateUser, ht, hf, db.transaction, updateUser.callback, hi,
            db.user.updateProfile, db.user.findUnique, hu] at h
        | none =>
          cases hg : gen data.industry with
          | error e =>
            simp [updateUser, ht, hf, db.transaction, updateUser.callback, hi, hg,
              db.user.findUnique, Effect.isRevalidate]
          | ok g =>
            unfold db.industryInsight.findUnique at hi
            simp [updateUser, ht, hf, db.transaction, updateUser.callback, hi, hg,
              db.user.updateProfile, db.user.findUnique, hu, db.industryInsight.create,
              db.industryInsight.findUnique] at h

/-- C5: for every successful `updateUser` call with payload industry `X` at time `now`: if no
insight row is keyed by `X` beforehand, the insight table afterwards is the old one followed
by exactly one new row keyed by `X`, holding the generator's `averageSalary`,
`inDemandSkills` and `industryGrowth` and the next-refresh time
`now + 7*24*60*60*1000`; if a row keyed by `X` exists, the generator is not invoked and the
insight table is unchanged.  In both cases, when the table had at most one row per industry
before, it has at most one row per industry afterwards. -/
theorem updateUser_insight (userId : Option String) (gen : Generator) (now : Nat)
    (data : ProfileData) (st : Store) (r : User)
    (h : (updateUser userId gen now data st).result = .ok r) :
    ((∀ i ∈ st.insights, i.industry ≠ data.industry) →
        ∃ g, gen data.industry = .ok g ∧
          (updateUser userId gen now data st).db.insights = st.insights ++
            [{ industry := data.industry, averageSalary := g.averageSalary,
               inDemandSkills := g.inDemandSkills, industryGrowth := g.industryGrowth,
               nextUpdate := now + 7 * 24 * 60 * 60 * 1000 }]) ∧
      ((∃ i ∈ st.insights, i.industry = data.industry) →
        (updateUser userId gen now data st).db.insights = st.insights ∧
        ∀ e ∈ (updateUser userId gen now data st).trace, e.isGenerate = false) ∧
      (st.uniqueIndustries → (updateUser userId gen now data st).db.uniqueIndustries) := by
  obtain ⟨S, caller, target, -, -, -, -, -, -, hcase⟩ := updateUser_ok_cases h
  rcases hcase with ⟨i, hi, hins, htr⟩ | ⟨hi, g, hg, hins, htr⟩
  · refine ⟨?_, ?_, ?_⟩
    · intro hno
      rw [insight_findUnique_none hno] at hi
      simp at hi
    · intro _
      refine ⟨hins, ?_⟩
      rw [htr]
      simp [Effect.isGenerate]
    · intro hu
      unfold Store.uniqueIndustries at hu ⊢
      rw [hins]
      exact hu
  · have hno : ∀ i ∈ st.insights, i.industry ≠ data.industry := by
      unfold db.industryInsight.findUnique at hi
      intro i hmem
      simpa using (List.find?_eq_none.mp hi) i hmem
    refine ⟨?_, ?_, ?_⟩
    · intro _
      exact ⟨g, hg, hins⟩
    · rintro ⟨i, hmem, hkey⟩
      exact absurd hkey (hno i hmem)
    · intro hu
      unfold Store.uniqueIndustries at hu ⊢
      rw [hins, List.map_append, List.nodup_append]
      refine ⟨hu, by simp, ?_⟩
      intro x hx hx'
      simp only [List.map_cons, List.map_nil, List.mem_singleton, insightRow] at hx'
      obtain ⟨i, hmem, hkey⟩ := List.mem_map.mp hx
      exact hno i hmem (hkey.trans hx')

/-- C6: on a store whose internal ids are unique, a successful `updateUser` returns the
caller's user row (the row carrying the caller's subject id) with industry, experience, bio
and skills set to the payload's and the onboarded flag true, its internal id, subject id,
email and name being unchanged; in the user table that row is replaced by the returned one
and every other row is unchanged; and the cache invalidation for path `/` is issued exactly
once.  A failing `updateUser` issues no cache invalidation. -/
theorem updateUser_result (userId : Option String) (gen : Generator) (now : Nat)
    (data : ProfileData) (st : Store) (hI : st.uniqueIds) :
    (∀ r, (updateUser userId gen now data st).result = .ok r →
        ∃ caller ∈ st.users, userId ≠ none ∧ caller.clerkUserId = userId ∧
          r = { id := caller.id, clerkUserId := caller.clerkUserId, email := caller.email,
                name := caller.name, industry := some data.industry,
                experience := some data.experience, bio := some data.bio,
                skills := data.skills, isOnboarded := true } ∧
          (updateUser userId gen now data st).db.users
            = st.users.map (fun v => if v = caller then r else v) ∧
          (updateUser userId gen now data st).trace.filter Effect.isRevalidate
            = [.revalidatePath "/"]) ∧
      (∀ err, (updateUser userId gen now data st).result = .error err →
        ∀ e ∈ (updateUser userId gen now data st).trace, e.isRevalidate = false) := by
  refine ⟨?_, fun err herr => updateUser_error_no_revalidate herr⟩
  intro r h
  obtain ⟨S, caller, target, hS, -, hf, hu, hr, husers, hcase⟩ := updateUser_ok_cases h
  obtain ⟨hmem, htest⟩ := findUnique_mem hf
  have hlinked : caller.clerkUserId = some S := by simpa [UserWhere.test] using htest
  have htarget : target = caller := by
    rw [findUnique_id_of_mem hI hmem] at hu
    exact (Option.some.inj hu).symm
  subst htarget
  refine ⟨target, hmem, by simp [hS], by rw [hS, hlinked], ?_, ?_, ?_⟩
  · rw [hr]; rfl
  · rw [husers]
    apply List.map_congr_left
    intro v hv
    by_cases hvt : v = target
    · subst hvt
      simp [hr]
    · have hid : v.id ≠ target.id := fun hid => hvt (List.inj_on_of_nodup_map hI hv hmem hid)
      simp [hvt, hid]
  · rcases hcase with ⟨i, -, -, htr⟩ | ⟨-, g, -, -, htr⟩ <;>
      · rw [htr]
        simp [List.filter, Effect.isRevalidate]

/-! ## The derived `isOnboarded` value -/

theorem finish_reflectsIndustry (u : User) (st : Store) (t : List Effect) :
    (getUserOnboardingStatus.finish u st t).reflectsIndustry := by
  intro r v hr hv
  simp only [getUserOnboardingStatus.finish, Except.ok.injEq] at hr
  subst hr
  simp only [Option.some.injEq] at hv
  subst hv
  rfl

theorem recover_reflectsIndustry (error : JsError) (userId userEmail : String) (st : Store)
    (t : List Effect) :
    (getUserOnboardingStatus.recover error userId userEmail st t).reflectsIndustry := by
  unfold getUserOnboardingStatus.recover
  split
  · split
    · intro r v hr; simp at hr
    · split
      · split
        · intro r v hr; simp at hr
        · exact finish_reflectsIndustry _ _ _
      · split
        · intro r v hr; simp at hr
        · exact finish_reflectsIndustry _ _ _
  · intro r v hr; simp at hr

theorem getUserOnboardingStatus_reflectsIndustry (userId : Option String)
    (clerkUser : Option ClerkUser) (st : Store) :
    (getUserOnboardingStatus userId clerkUser st).reflectsIndustry := by
  unfold getUserOnboardingStatus
  split
  · intro r v hr hv; simp at hr; subst hr; simp at hv
  · split
    · intro r v hr hv; simp at hr; subst hr; simp at hv
    · split
      · intro r v hr hv; simp at hr; subst hr; simp at hv
      · split
        · exact finish_reflectsIndustry _ _ _
        · split
          · split
            · exact finish_reflectsIndustry _ _ _
            · exact recover_reflectsIndustry _ _ _ _ _
          · split
            · split
              · exact finish_reflectsIndustry _ _ _
              · intro r v hr; simp at hr
            · exact finish_reflectsIndustry _ _ _

theorem truthy_isSome_iff (v : Option String) :
    (truthy v).isSome = true ↔ ∃ s, v = some s ∧ s ≠ "" := by
  cases v with
  | none => simp
  | some t =>
    by_cases ht : t = ""
    · subst ht; simp
    · simp [truthy_some ht, ht]

/-- Once the session guards are passed and a row carries the subject id, that row is
returned after the single lookup. -/
theorem getUserOnboardingStatus_found {S E : String} {cu : ClerkUser} {st : Store} {u : User}
    (hS : S ≠ "") (hcu : cu.firstEmail = some E) (hE : E ≠ "")
    (hf : st.users.find? (UserWhere.test (.clerkUserId S)) = some u) :
    getUserOnboardingStatus (some S) (some cu) st
      = getUserOnboardingStatus.finish u st [.userFindUnique (.clerkUserId S)] := by
  simp [getUserOnboardingStatus, truthy_some hS, hcu, truthy_some hE, db.user.findUnique, hf]

/-- C7: whenever `getUserOnboardingStatus` returns a non-null user, `isOnboarded` is true
exactly when that user's industry is set and non-empty, whatever the stored onboarded flag
is.  Consequently, after a successful `updateUser` the next `getUserOnboardingStatus` for the
same subject (the provider supplying a primary email) returns a user whose industry is the
payload's, with `isOnboarded` true when the payload's industry is non-empty and false when
it is the empty string. -/
theorem isOnboarded_reflects_industry :
    (∀ (userId : Option String) (clerkUser : Option ClerkUser) (st : Store)
        (r : OnboardingStatus) (u : User),
        (getUserOnboardingStatus userId clerkUser st).result = .ok r → r.user = some u →
        (r.isOnboarded = true ↔ ∃ s, u.industry = some s ∧ s ≠ "")) ∧
      (∀ (userId : Option String) (gen : Generator) (now : Nat) (data : ProfileData)
        (st : Store) (r : User) (cu : ClerkUser) (E : String),
        (updateUser userId gen now data st).result = .ok r →
        cu.firstEmail = some E → E ≠ "" →
        ∃ u, (getUserOnboardingStatus userId (some cu)
                (updateUser userId gen now data st).db).result
              = .ok { isOnboarded := decide (data.industry ≠ ""), user := some u } ∧
            u.clerkUserId = userId ∧ u.industry = some data.industry) := by
  constructor
  · intro userId clerkUser st r u hr hu
    rw [getUserOnboardingStatus_reflectsIndustry userId clerkUser st r u hr hu]
    exact truthy_isSome_iff u.industry
  · intro userId gen now data st r cu E h hcu hE
    obtain ⟨S, caller, target, hS, hS', hf, -, -, husers, -⟩ := updateUser_ok_cases h
    obtain ⟨-, htest⟩ := findUnique_mem hf
    have hlinked : caller.clerkUserId = some S := by simpa [UserWhere.test] using htest
    have hfind : (updateUser userId gen now data st).db.users.find?
        (UserWhere.test (.clerkUserId S)) = some (caller.setProfile data) := by
      rw [husers, List.find?_map]
      have hcomp : (UserWhere.test (.clerkUserId S) ∘
          fun v => if v.id = caller.id then v.setProfile data else v)
          = UserWhere.test (.clerkUserId S) := by
        funext v
        by_cases hv : v.id = caller.id <;> simp [hv, UserWhere.test, User.setProfile]
      rw [hcomp]
      unfold db.user.findUnique at hf
      rw [hf]
      simp
    refine ⟨caller.setProfile data, ?_, ?_, rfl⟩
    · subst hS
      rw [getUserOnboardingStatus_found hS' hcu hE hfind]
      by_cases hX : data.industry = ""
      · simp [getUserOnboardingStatus.finish, User.setProfile, hX]
      · simp [getUserOnboardingStatus.finish, User.setProfile, hX, truthy_some hX]
    · rw [hS]; exact hlinked

/-! ## Linking an existing row -/

/-- The first call of the linking scenario: the row found by email has no subject id, so
it is linked. -/
theorem getUserOnboardingStatus_link_eq {S : String} {cu : ClerkUser} {st : Store} {u : User}
    (hS : S ≠ "") (hE : u.email ≠ "") (hcu : cu.firstEmail = some u.email)
    (hI : st.uniqueIds) (hEm : st.uniqueEmails)
    (hnoS : ∀ v ∈ st.users, v.clerkUserId ≠ some S)
    (hu : u ∈ st.users) (hnull : u.clerkUserId = none) :
    getUserOnboardingStatus (some S) (some cu) st
      = ⟨.ok { isOnboarded := (truthy u.industry).isSome, user := some (u.link S) },
         { users := st.users.map (fun v => if v = u then u.link S else v),
           insights := st.insights },
         [.userFindUnique (.clerkUserId S), .userFindUnique (.email u.email),
          .userUpdate u.id]⟩ := by
  have h1 := findUnique_clerkUserId_none hnoS
  have h2 := findUnique_email_of_mem hEm hu
  have h3 := findUnique_id_of_mem hI hu
  have hany : (st.users.any fun v => decide (v.id ≠ u.id ∧ v.clerkUserId = some S)) = false := by
    rw [List.any_eq_false]
    intro v hv
    simp only [decide_eq_true_eq, not_and]
    intro _
    exact hnoS v hv
  have hmap : st.users.map (fun v => if v.id = u.id then { v with clerkUserId := some S } else v)
      = st.users.map (fun v => if v = u then u.link S else v) := by
    apply List.map_congr_left
    intro v hv
    by_cases hvu : v = u
    · subst hvu
      simp [User.link]
    · have hid : v.id ≠ u.id := fun hid => hvu (List.inj_on_of_nodup_map hI hv hu hid)
      simp [hvu, hid]
  simp only [getUserOnboardingStatus, truthy_some hS, hcu, truthy_some hE, h1, h2, hnull,
    db.user.updateClerkUserId, h3, hany, getUserOnboardingStatus.finish, hmap]
  simp [User.link]

/-- C3: on a store with unique internal ids and unique emails in which no row has subject
id `S` and the row with the caller's email has a null subject id, `getUserOnboardingStatus`
sets that row's subject id to `S` and changes nothing else: the number of rows is the same,
exactly one row has subject id `S` afterwards, and the link is the only write.  A second
call with the same `S` on the resulting store issues no write, leaves the store as it is and
returns the same user and the same `isOnboarded` value. -/
theorem getUserOnboardingStatus_links (S : String) (cu cu' : ClerkUser) (st : Store)
    (u : User) (hS : S ≠ "") (hE : u.email ≠ "") (hcu : cu.firstEmail = some u.email)
    (hcu' : ∃ E', cu'.firstEmail = some E' ∧ E' ≠ "")
    (hI : st.uniqueIds) (hEm : st.uniqueEmails)
    (hnoS : ∀ v ∈ st.users, v.clerkUserId ≠ some S)
    (hu : u ∈ st.users) (hnull : u.clerkUserId = none) :
    (getUserOnboardingStatus (some S) (some cu) st).result
        = .ok { isOnboarded := (truthy u.industry).isSome,
                user := some { u with clerkUserId := some S } } ∧
      (getUserOnboardingStatus (some S) (some cu) st).db
        = { users := st.users.map (fun v => if v = u then { u with clerkUserId := some S } else v),
            insights := st.insights } ∧
      (getUserOnboardingStatus (some S) (some cu) st).db.users.length = st.users.length ∧
      (getUserOnboardingStatus (some S) (some cu) st).db.users.countP
        (fun v => v.clerkUserId = some S) = 1 ∧
      (getUserOnboardingStatus (some S) (some cu) st).trace.filter Effect.isWrite
        = [.userUpdate u.id] ∧
      (getUserOnboardingStatus (some S) (some cu')
          (getUserOnboardingStatus (some S) (some cu) st).db).result
        = (getUserOnboardingStatus (some S) (some cu) st).result ∧
      (getUserOnboardingStatus (some S) (some cu')
          (getUserOnboardingStatus (some S) (some cu) st).db).db
        = (getUserOnboardingStatus (some S) (some cu) st).db ∧
      (∀ e ∈ (getUserOnboardingStatus (some S) (some cu')
          (getUserOnboardingStatus (some S) (some cu) st).db).trace, e.isWrite = false) := by
  obtain ⟨E', hcuE', hE'⟩ := hcu'
  have hfirst := getUserOnboardingStatus_link_eq hS hE hcu hI hEm hnoS hu hnull
  have hcond : ∀ v ∈ st.users,
      ((if v = u then u.link S else v).clerkUserId = some S ↔ v = u) := by
    intro v hv
    by_cases hvu : v = u
    · simp [hvu, User.link]
    · simp [hvu, hnoS v hv]
  have hfind : (st.users.map (fun v => if v = u then u.link S else v)).find?
      (UserWhere.test (.clerkUserId S)) = some (u.link S) := by
    refine find?_of_unique _ _ _ ?_ (by simp [UserWhere.test, User.link]) ?_
    · exact List.mem_map.mpr ⟨u, hu, by simp⟩
    · intro x hx hp
      obtain ⟨v, hv, rfl⟩ := List.mem_map.mp hx
      have hvu : v = u := (hcond v hv).mp (by simpa [UserWhere.test] using hp)
      simp [hvu]
  have hsecond := @getUserOnboardingStatus_found S E' cu'
    { users := st.users.map (fun v => if v = u then u.link S else v),
      insights := st.insights } (u.link S) hS hcuE' hE' hfind
  rw [hfirst]
  refine ⟨rfl, rfl, by simp, ?_, by simp [List.filter, Effect.isWrite], ?_, ?_, ?_⟩
  · simp only [List.countP_map]
    rw [List.countP_congr (q := fun v => v == u)]
    · rw [← List.count_eq_countP]
      exact List.count_eq_one_of_mem (List.Nodup.of_map _ hI) hu
    · intro v hv
      simpa using hcond v hv
  · rw [hsecond]
    simp [getUserOnboardingStatus.finish, User.link]
  · rw [hsecond]
    simp [getUserOnboardingStatus.finish]
  · rw [hsecond]
    simp [getUserOnboardingStatus.finish, Effect.isWrite]

/-! ## Concrete runs -/

/-- C9 at a concrete input: an empty subject id on the sample store. -/
theorem getUserOnboardingStatus_no_session_witness :
    (getUserOnboardingStatus (some "") (some sampleClerkUser) sampleStore).result
        = .ok { isOnboarded := false, user := none } ∧
      (getUserOnboardingStatus (some "") (some sampleClerkUser) sampleStore).trace = [] ∧
      (getUserOnboardingStatus (some "") (some sampleClerkUser) sampleStore).db = sampleStore :=
  getUserOnboardingStatus_no_session (some "") (some sampleClerkUser) sampleStore
    (Or.inl (Or.inr rfl))

/-- C8 at a concrete input: subject `ghost` has no row in the sample store. -/
theorem updateUser_guards_witness :
    (updateUser (some "ghost") sampleGenerator 1000 sampleData sampleStore).result
        = .error (JsError.new "User not found in database for the authenticated Clerk user.") ∧
      (updateUser (some "ghost") sampleGenerator 1000 sampleData sampleStore).db
        = sampleStore :=
  have h := updateUser_guards (some "ghost") sampleGenerator 1000 sampleData sampleStore
    (Or.inr ⟨"ghost", rfl, by decide, by decide⟩)
  ⟨(h.2.1 "ghost" rfl (by decide)).1, h.2.2.1⟩

/-- C2 at a concrete input: subject `userC` with email `c@x.com` is new to the sample store. -/
theorem getUserOnboardingStatus_creates_witness :
    ∃ row : User,
      (getUserOnboardingStatus (some "userC")
          (some { firstName := none, emailAddresses := some [⟨"c@x.com"⟩] })
          sampleStore).db.users = [foreignRow, legacyRow, row] ∧
        row.clerkUserId = some "userC" ∧ row.email = "c@x.com" ∧ row.isOnboarded = false := by
  obtain ⟨row, _, h2, _, h4, h5, h6, _⟩ := getUserOnboardingStatus_creates "userC" "c@x.com"
    { firstName := none, emailAddresses := some [⟨"c@x.com"⟩] } sampleStore
    (by decide) (by decide) rfl (by decide) (by decide)
  exact ⟨row, by rw [h2]; rfl, h4, h5, h6⟩

/-- C3 at a concrete input: subject `userB` signs in with the email of the unlinked row. -/
theorem getUserOnboardingStatus_links_witness :
    (getUserOnboardingStatus (some "userB") (some sampleClerkUser) sampleStore).db.users
        = [foreignRow, { legacyRow with clerkUserId := some "userB" }] ∧
      (getUserOnboardingStatus (some "userB") (some sampleClerkUser)
          (getUserOnboardingStatus (some "userB") (some sampleClerkUser) sampleStore).db).db
        = (getUserOnboardingStatus (some "userB") (some sampleClerkUser) sampleStore).db :=
  have h := getUserOnboardingStatus_links "userB" sampleClerkUser sampleClerkUser sampleStore
    legacyRow (by decide) (by decide) rfl ⟨"b@x.com", rfl, by decide⟩ (by decide) (by decide)
    (by decide) (by decide) rfl
  ⟨by rw [h.2.1]; decide, h.2.2.2.2.2.2.1⟩

/-- C4 at a concrete input: the generator fails with `quota exceeded`. -/
theorem updateUser_generator_failure_witness :
    (updateUser (some "userA") failingGenerator 1000 sampleData sampleStore).result
        = .error (JsError.new "Failed to update profile: quota exceeded") ∧
      (updateUser (some "userA") failingGenerator 1000 sampleData sampleStore).db
        = sampleStore :=
  have h := updateUser_generator_failure "userA" failingGenerator 1000 sampleData sampleStore
    foreignRow (JsError.new "quota exceeded") (by decide) (by decide) rfl (by decide) rfl
  ⟨h.1, h.2.1⟩

/-- C5 at a concrete input: industry `Finance` is new and the call is made at time 1000. -/
theorem updateUser_insight_witness :
    (updateUser (some "userA") sampleGenerator 1000 sampleData sampleStore).db.insights
      = [{ industry := "Finance", averageSalary := "120000", inDemandSkills := "SQL, Python",
           industryGrowth := "12%", nextUpdate := 604801000 }] := by
  obtain ⟨g, hg, hins⟩ := (updateUser_insight (some "userA") sampleGenerator 1000 sampleData
    sampleStore (foreignRow.setProfile sampleData) rfl).1 (by decide)
  rw [hins]
  have hg' : g = { averageSalary := "120000", inDemandSkills := "SQL, Python",
                   industryGrowth := "12%" } := by
    simpa [sampleGenerator] using hg.symm
  subst hg'
  rfl

/-- C6 at a concrete input: subject `userA` updates the profile on the sample store. -/
theorem updateUser_result_witness :
    ∃ caller ∈ sampleStore.users,
      caller.clerkUserId = some "userA" ∧
      (updateUser (some "userA") sampleGenerator 1000 sampleData sampleStore).result
        = .ok { caller with industry := some "Finance", experience := some 3,
                            bio := some "Analyst", skills := ["SQL"], isOnboarded := true } := by
  obtain ⟨caller, hmem, _, hlinked, hr, _, _⟩ :=
    (updateUser_result (some "userA") sampleGenerator 1000 sampleData sampleStore
      (by decide)).1 (foreignRow.setProfile sampleData) rfl
  refine ⟨caller, hmem, hlinked, ?_⟩
  have : (updateUser (some "userA") sampleGenerator 1000 sampleData sampleStore).result
      = .ok (foreignRow.setProfile sampleData) := rfl
  rw [this, hr]
  rfl

/-- C7 at a concrete input: after an update with the empty industry the status is false. -/
theorem isOnboarded_reflects_industry_witness :
    ∃ u, (getUserOnboardingStatus (some "userA") (some sampleClerkUser)
            (updateUser (some "userA") sampleGenerator 1000
              { sampleData with industry := "" } sampleStore).db).result
          = .ok { isOnboarded := false, user := some u } ∧
        u.clerkUserId = some "userA" ∧ u.industry = some "" :=
  isOnboarded_reflects_industry.2 (some "userA") sampleGenerator 1000
    { sampleData with industry := "" } sampleStore
    (foreignRow.setProfile { sampleData with industry := "" }) sampleClerkUser "b@x.com"
    rfl rfl (by decide)

end Twell
